import Mathlib

/-!
Verification of the `ton-ledger-ts` host-side Ledger driver.

The definitions below are a shallow embedding of the TypeScript sources:
`TonTransport.ts` (the current revision, with jetton/NFT payloads and
`signData`) and `utils/ledgerWriter.ts`.  Byte buffers are modelled as
`List Nat` with every element `< 256` maintained by construction
(`Buffer` index assignment in Node truncates modulo 256, which the model
reflects).  The external `ton-core` cell library is modelled per its use
here: a builder accumulates a big-endian bit stream plus a list of child
references; `hash()` and `depth()` are opaque operations supplied through
a `CellOps` record, since this repository treats the cell codec as an
external library.
-/

set_option maxRecDepth 100000

namespace TonLedger

abbrev Bytes := List Nat

/-- Big-endian byte encoding of `v` into exactly `n` bytes (value taken
modulo `256 ^ n`, matching `Buffer.writeUIntBE`-style writers). -/
def beBytes : Nat → Nat → Bytes
  | 0, _ => []
  | n + 1, v => v / 256 ^ n % 256 :: beBytes n v

/-- Big-endian decoding of a byte list. -/
def beDecode (bs : Bytes) : Nat := bs.foldl (fun a b => 256 * a + b) 0

/-- Big-endian bit encoding of `v` into exactly `n` bits. -/
def natToBits : Nat → Nat → List Bool
  | 0, _ => []
  | n + 1, v => v.testBit n :: natToBits n v

def bytesToBits (bs : Bytes) : List Bool := (bs.map (natToBits 8)).flatten

/-- Source `writeUint8` in ledgerWriter: `b[0] = value` truncates mod 256. -/
def writeUint8 (v : Nat) : Bytes := [v % 256]

/-- Source `writeUint16` in ledgerWriter (big-endian, 2 bytes). -/
def writeUint16 (v : Nat) : Bytes := beBytes 2 v

/-- Source `writeUint32` in ledgerWriter (big-endian, 4 bytes). -/
def writeUint32 (v : Nat) : Bytes := beBytes 4 v

/-- Source `writeUint64` in ledgerWriter (via a 64-bit cell field, big-endian). -/
def writeUint64 (v : Nat) : Bytes := beBytes 8 v

/-- Binary-length worker, structurally recursive on a fuel bound so that
it evaluates by kernel reduction. -/
def bitLenAux : Nat → Nat → Nat
  | 0, _ => 0
  | fuel + 1, v => if v = 0 then 0 else bitLenAux fuel (v / 2) + 1

/-- Bit length of `v` (`v.toString(2).length` for `v > 0`; `0` bits for `0`,
matching the `value === 0n ? 0 : ...` special case of `writeVarUInt`). -/
def bitLen (v : Nat) : Nat := bitLenAux v v

/-- Number of bytes used by `writeVarUInt` for the value part:
`Math.ceil(value.toString(2).length / 8)`, and `0` for the value `0`. -/
def varUIntSize (v : Nat) : Nat := (bitLen v + 7) / 8

/-- Source `writeVarUInt` in ledgerWriter — one length byte, then the value
big-endian in that many bytes. -/
def writeVarUInt (v : Nat) : Bytes := varUIntSize v :: beBytes (varUIntSize v) v

/-- An address as the driver consumes it: a workchain id and a 32-byte hash. -/
structure TAddress where
  workChain : Int
  hash : Bytes
deriving DecidableEq

/-- Source `writeAddress` in ledgerWriter — one chain byte (`0xff` for the
masterchain id `-1`, else the id truncated to a byte) plus the raw hash. -/
def writeAddress (a : TAddress) : Bytes :=
  writeUint8 (if a.workChain = -1 then 0xff else (a.workChain % 256).toNat) ++ a.hash

/-- A `ton-core` cell: a finalized bit stream plus child references. -/
inductive Cell where
  | mk (bits : List Bool) (refs : List Cell)

def Cell.bits : Cell → List Bool
  | .mk b _ => b

def Cell.refs : Cell → List Cell
  | .mk _ r => r

/-- The opaque operations of the external cell library that the driver
uses on finalized cells: the deterministic content hash and the depth. -/
structure CellOps where
  hash : Cell → Bytes
  depth : Cell → Nat

/-- A concrete instantiation of the opaque cell operations, used to
evaluate the model on closed inputs. -/
def constOps : CellOps := ⟨fun _ => List.replicate 32 0, fun _ => 0⟩

/-- Source `writeCellRef` in ledgerWriter — 2-byte depth then 32-byte hash. -/
def writeCellRef (ops : CellOps) (c : Cell) : Bytes :=
  writeUint16 (ops.depth c) ++ ops.hash c

/-- A `ton-core` builder: bits and refs accumulated in order. -/
structure Builder where
  bits : List Bool
  refs : List Cell

def Builder.empty : Builder := ⟨[], []⟩

def Builder.storeBit (b : Builder) (x : Bool) : Builder :=
  { b with bits := b.bits ++ [x] }

def Builder.storeUint (b : Builder) (v n : Nat) : Builder :=
  { b with bits := b.bits ++ natToBits n v }

def Builder.storeBuffer (b : Builder) (bs : Bytes) : Builder :=
  { b with bits := b.bits ++ bytesToBits bs }

def Builder.storeRef (b : Builder) (c : Cell) : Builder :=
  { b with refs := b.refs ++ [c] }

/-- Cell-library `storeCoins`: 4-bit byte-count then that many bytes of value bits. -/
def Builder.storeCoins (b : Builder) (v : Nat) : Builder :=
  (b.storeUint (varUIntSize v) 4).storeUint v (8 * varUIntSize v)

/-- Cell-library `storeMaybeRef`: a presence bit, then the child reference if present. -/
def Builder.storeMaybeRef (b : Builder) (c : Option Cell) : Builder :=
  match c with
  | some c => (b.storeBit true).storeRef c
  | none => b.storeBit false

/-- Cell-library `storeAddress`: for an internal address, tag bits `10`, no anycast,
8-bit workchain (two-complement byte), then the 256-bit hash; `null` is the
2-bit zero tag. -/
def Builder.storeAddress (b : Builder) (a : Option TAddress) : Builder :=
  match a with
  | none => (b.storeUint 0 2)
  | some a =>
    (((b.storeUint 2 2).storeBit false).storeUint (a.workChain % 256).toNat 8).storeBuffer a.hash

def Builder.endCell (b : Builder) : Cell := .mk b.bits b.refs

/-! ## Errors and path validation (`TonTransport.ts`) -/

inductive LedgerError where
  /-- any of the four `validatePath` throws (InvalidPath in the spec). -/
  | invalidPath : LedgerError
  /-- the Invalid-response throw on a non-32-byte address answer. -/
  | invalidResponse : LedgerError
  /-- the default branch of the signData switch, for an unknown request type. -/
  | notSupported (tag : String) : LedgerError
  /-- the signData app-data throw when neither `address` nor `domain` is set. -/
  | appDataEmpty : LedgerError
  /-- the Hash-mismatch throw, carrying the expected and received hashes. -/
  | hashMismatch (expected got : Bytes) : LedgerError
  /-- the Received-signature-is-invalid throw. -/
  | invalidSignature : LedgerError
deriving DecidableEq

/-- The conjunction of the four `validatePath` checks: length at least 6,
first element 44, second element 607, every element below `0x80000000`. -/
def validPath (path : List Nat) : Prop :=
  6 ≤ path.length ∧ path.get? 0 = some 44 ∧ path.get? 1 = some 607 ∧
    ∀ p ∈ path, p < 0x80000000

instance (path : List Nat) : Decidable (validPath path) := by
  unfold validPath; infer_instance

/-- Source `validatePath`: throws (modelled as `.error .invalidPath`) unless all
four checks pass. -/
def validatePath (path : List Nat) : Except LedgerError Unit :=
  if validPath path then .ok () else .error .invalidPath

/-- Source `pathElementsToBuffer`: `buffer[0] = paths.length` (a `Buffer` index
assignment, hence truncated mod 256) followed by each element as 4 bytes
big-endian. -/
def pathElementsToBuffer (paths : List Nat) : Bytes :=
  writeUint8 paths.length ++ (paths.map (beBytes 4)).flatten

/-- The path buffer every operation sends: elements are biased by the
hardening offset `0x80000000` (`path.map(v => v + 0x80000000)`) before
serialization. -/
def pathBuf (path : List Nat) : Bytes :=
  pathElementsToBuffer (path.map (· + 0x80000000))

/-! ## Address flags (`processAddressFlags`) -/

structure AddressOpts where
  testOnly : Option Bool := none
  bounceable : Option Bool := none
  chain : Option Int := none

structure AddressFlags where
  testOnly : Bool
  bounceable : Bool
  chain : Int
  flags : Nat
deriving DecidableEq

/-- Source `processAddressFlags`: defaults (`bounceable` true, `testOnly` false,
`chain` 0), flag bit 0 for test-only, flag bit 1 for `chain === -1`.
Note the function is total: no chain value is rejected. -/
def processAddressFlags (opts : Option AddressOpts) : AddressFlags :=
  let bounceable := ((opts.bind (·.bounceable)).getD true)
  let testOnly := ((opts.bind (·.testOnly)).getD false)
  let chain := ((opts.bind (·.chain)).getD 0)
  let flags := Nat.lor (if testOnly then 0x01 else 0) (if chain = -1 then 0x02 else 0)
  ⟨testOnly, bounceable, chain, flags⟩

/-! ## Payload encoding (`signTransaction` payload block) -/

/-- The `TonPayloadFormat` union; `other` models a runtime value whose
`type` string is none of the declared tags (TypeScript cannot rule these
out at runtime, and the if/else-if chain of the encoder has no final
else branch). The raw-cell variant of the source is
`raw` here to avoid a reserved word. -/
inductive TonPayloadFormat where
  | raw (message : Cell) : TonPayloadFormat
  | comment (text : Bytes) : TonPayloadFormat
  | jettonTransfer (queryId : Option Nat) (amount : Nat) (decimals : Nat) (ticker : Bytes)
      (destination : TAddress) (responseDestination : TAddress)
      (customPayload : Option Cell) (forwardAmount : Nat)
      (forwardPayload : Option Cell) : TonPayloadFormat
  | nftTransfer (queryId : Option Nat) (newOwner : TAddress) (responseDestination : TAddress)
      (customPayload : Option Cell) (forwardAmount : Nat)
      (forwardPayload : Option Cell) : TonPayloadFormat
  | other (tag : String) : TonPayloadFormat

/-- Hint bytes for the optional 64-bit query id: presence byte then the
value when present (`writeUint8(1), writeUint64(q)` / `writeUint8(0)`). -/
def hintOptU64 (o : Option Nat) : Bytes :=
  match o with
  | some q => writeUint8 1 ++ writeUint64 q
  | none => writeUint8 0

/-- Hint bytes for an optional cell reference: presence byte then
depth+hash when present. -/
def hintOptRef (ops : CellOps) (o : Option Cell) : Bytes :=
  match o with
  | some c => writeUint8 1 ++ writeCellRef ops c
  | none => writeUint8 0

/-- The jetton/NFT hint body `d`, accumulated field by field exactly as
in the source. -/
def jettonNftHintBody (ops : CellOps) : TonPayloadFormat → Bytes
  | .jettonTransfer queryId amount decimals ticker dest resp custom fwdAmt fwdP =>
      hintOptU64 queryId ++ writeVarUInt amount ++
      writeUint8 decimals ++ writeUint8 ticker.length ++ ticker ++
      writeAddress dest ++ writeAddress resp ++
      hintOptRef ops custom ++ writeVarUInt fwdAmt ++ hintOptRef ops fwdP
  | .nftTransfer queryId newOwner resp custom fwdAmt fwdP =>
      hintOptU64 queryId ++ writeAddress newOwner ++ writeAddress resp ++
      hintOptRef ops custom ++ writeVarUInt fwdAmt ++ hintOptRef ops fwdP
  | _ => []

/-- The jetton/NFT payload tree, built exactly as in the source: 32-bit
magic, a plain 64-bit query id (`0` when unset — no presence bit),
jetton-only coins amount and destination, NFT-only new owner, response
destination, maybe-ref custom payload, coins forward amount, maybe-ref
forward payload. -/
def jettonNftTree : TonPayloadFormat → Builder
  | .jettonTransfer queryId amount _ _ dest resp custom fwdAmt fwdP =>
      ((((((Builder.empty.storeUint 0x0f8a7ea5 32).storeUint (queryId.getD 0)
        64).storeCoins amount).storeAddress (some dest)).storeAddress
        (some resp)).storeMaybeRef custom).storeCoins fwdAmt |>.storeMaybeRef fwdP
  | .nftTransfer queryId newOwner resp custom fwdAmt fwdP =>
      (((((Builder.empty.storeUint 0x5fcc3d14 32).storeUint (queryId.getD 0)
        64).storeAddress (some newOwner)).storeAddress
        (some resp)).storeMaybeRef custom).storeCoins fwdAmt |>.storeMaybeRef fwdP
  | _ => Builder.empty

/-- The payload block of `signTransaction`: from the optional payload,
the optional cell to reference and the hint bytes.  `hints` starts as
`[0]` and is only replaced in the `comment` and jetton/NFT branches; the
`if/else if` chain has no final `else`, so an unrecognized variant
leaves both the cell (`null`) and the hints (`[0]`) untouched. -/
def encodePayload (ops : CellOps) : Option TonPayloadFormat → Option Cell × Bytes
  | none => (none, writeUint8 0)
  | some (.comment text) =>
      (some ((Builder.empty.storeUint 0 32).storeBuffer text).endCell,
       writeUint8 1 ++ writeUint32 0 ++ writeUint16 text.length ++ text)
  | some (.raw msg) => (some msg, writeUint8 0)
  | some p@(.jettonTransfer ..) =>
      (some (jettonNftTree p).endCell,
       writeUint8 1 ++ writeUint32 0x01 ++
         writeUint16 (jettonNftHintBody ops p).length ++ jettonNftHintBody ops p)
  | some p@(.nftTransfer ..) =>
      (some (jettonNftTree p).endCell,
       writeUint8 1 ++ writeUint32 0x02 ++
         writeUint16 (jettonNftHintBody ops p).length ++ jettonNftHintBody ops p)
  | some (.other _) => (none, writeUint8 0)

/-! ## The signing request package (`signTransaction`) -/

/-- The arguments of `signTransaction`.  `stateInit` is the cell the
source builds from the caller-supplied `StateInit` via the external
`storeStateInit` store; the model takes the built cell directly. -/
structure SignTx where
  /-- the source names this field `to` (a reserved word here). -/
  dest : TAddress
  sendMode : Nat
  seqno : Nat
  timeout : Nat
  bounce : Bool
  amount : Nat
  stateInit : Option Cell := none
  payload : Option TonPayloadFormat := none

/-- The full request buffer `pkg`: header byte, seqno, timeout, varuint
amount, destination, bounce byte, send-mode byte, state-init presence
byte (+ depth/hash), payload presence byte (+ depth/hash + hints, or a
second zero byte when absent). -/
def signTxPkg (ops : CellOps) (tx : SignTx) : Bytes :=
  let base := writeUint8 0 ++ writeUint32 tx.seqno ++ writeUint32 tx.timeout ++
    writeVarUInt tx.amount ++ writeAddress tx.dest ++
    writeUint8 (if tx.bounce then 1 else 0) ++ writeUint8 tx.sendMode
  let withSi := base ++
    (match tx.stateInit with
     | some c => writeUint8 1 ++ writeUint16 (ops.depth c) ++ ops.hash c
     | none => writeUint8 0)
  match encodePayload ops tx.payload with
  | (some c, hints) => withSi ++ writeUint8 1 ++ writeUint16 (ops.depth c) ++ ops.hash c ++ hints
  | (none, _) => withSi ++ writeUint8 0 ++ writeUint8 0

/-! ## Sign-data requests (`signData`) -/

/-- The `SignDataRequest` union, with `other` for a runtime value whose
`type` is neither of the two declared tags (handled by the `default:`
throw in the source).  `domain` is the ASCII bytes of the domain
string.  -/
inductive SignDataRequest where
  | plaintext (text : Bytes) : SignDataRequest
  | appData (address : Option TAddress) (domain : Option Bytes) (data : Cell)
      (ext : Option Cell) : SignDataRequest
  | other (tag : String) : SignDataRequest

/-- The domain cell: labels (split on the dot, byte 46), reversed, each
stored as raw bytes followed by one zero byte. -/
def domainCell (domain : Bytes) : Cell :=
  (((domain.splitOn 46).reverse.foldl
    (fun b l => (b.storeBuffer l).storeUint 0 8) Builder.empty)).endCell

/-- The `switch (req.type)` of `signData`: the schema magic, the flat
request bytes, and the cell to be hashed.  `plaintext` stores the text
with `storeStringTail`, modelled as a plain byte store (they agree for
texts that fit in one cell, and the claims only concern such texts). -/
def signDataEncode (ops : CellOps) :
    SignDataRequest → Except LedgerError (Nat × Bytes × Cell)
  | .plaintext text =>
      .ok (0x754bf91b, text, (Builder.empty.storeBuffer text).endCell)
  | .appData address domain data ext =>
      if address.isNone && domain.isNone then
        .error .appDataEmpty
      else
        let (b₁, dp₁) :=
          match address with
          | some a => ((Builder.empty.storeBit true).storeAddress (some a),
                       writeUint8 1 ++ writeAddress a)
          | none => (Builder.empty.storeBit false, writeUint8 0)
        let (b₂, dp₂) :=
          match domain with
          | some db => ((b₁.storeBit true).storeRef (domainCell db),
                        dp₁ ++ writeUint8 1 ++ writeUint8 db.length ++ db)
          | none => (b₁.storeBit false, dp₁ ++ writeUint8 0)
        let b₃ := b₂.storeRef data
        let dp₃ := dp₂ ++ writeCellRef ops data
        let (b₄, dp₄) :=
          match ext with
          | some e => ((b₃.storeBit true).storeRef e,
                       dp₃ ++ writeUint8 1 ++ writeCellRef ops e)
          | none => (b₃.storeBit false, dp₃ ++ writeUint8 0)
        .ok (0x54b58535, dp₄, b₄.endCell)
  | .other tag => .error (.notSupported tag)

/-! ## Device exchanges and call traces -/

def INS_ADDRESS : Nat := 0x05
def INS_SIGN_TX : Nat := 0x06
def INS_SIGN_DATA : Nat := 0x09

/-- One `#doRequest` invocation: the APDU fields sent to the device. -/
structure Exchange where
  ins : Nat
  p1 : Nat
  p2 : Nat
  data : Bytes
deriving DecidableEq

/-- Source `chunks`: splits a buffer into ceil(len/n) sub-buffers of n bytes (the
last one possibly shorter). -/
def chunks (buf : Bytes) (n : Nat) : List Bytes :=
  (List.range ((buf.length + n - 1) / n)).map (fun i => ((buf.drop (i * n)).take n))

/-- The chunked transmission of a package: every chunk but the last on
sub-instruction `p2 = 0x02`, the last on `p2 = 0x00`. -/
def chunkExchanges (ins : Nat) (pkg : Bytes) : List Exchange :=
  let cs := chunks pkg 255
  cs.dropLast.map (fun c => ⟨ins, 0x00, 0x02, c⟩) ++
    [⟨ins, 0x00, 0x00, (cs.getLast?.getD [])⟩]

/-- The single exchange performed by `getAddress(path)` (`p1 = 0x00`,
no flags on the wire). -/
def getAddressExchange (path : List Nat) : Exchange :=
  ⟨INS_ADDRESS, 0x00, 0x00, pathBuf path⟩

/-- The request phase of `getAddress`: path validation, flag resolution
(total — no chain check), then the address exchange; afterwards the
response must be exactly 32 bytes.  Returns the exchanges performed in
order and the error, if any, raised during this phase. -/
def getAddressTrace (path : List Nat) (opts : Option AddressOpts) (addrResp : Bytes) :
    List Exchange × Option LedgerError :=
  match validatePath path with
  | .error e => ([], some e)
  | .ok _ =>
    let _ := processAddressFlags opts
    if addrResp.length ≠ 32 then ([getAddressExchange path], some .invalidResponse)
    else ([getAddressExchange path], none)

/-- The request phase of `validateAddress`: as `getAddress` but with
`p1 = 0x01` and the resolved flags as `p2`. -/
def validateAddressTrace (path : List Nat) (opts : Option AddressOpts) (addrResp : Bytes) :
    List Exchange × Option LedgerError :=
  match validatePath path with
  | .error e => ([], some e)
  | .ok _ =>
    let f := processAddressFlags opts
    let ex : Exchange := ⟨INS_ADDRESS, 0x01, f.flags, pathBuf path⟩
    if addrResp.length ≠ 32 then ([ex], some .invalidResponse)
    else ([ex], none)

/-- The request phase of `signTransaction`: path validation, then the
public-key fetch (`getAddress`) exchange, then the package is built
(never failing — an unknown payload variant silently encodes as
"no payload") and sent as path declaration plus chunks.  `addrResp` is
the device answer to the public-key fetch. -/
def signTxTrace (ops : CellOps) (path : List Nat) (tx : SignTx) (addrResp : Bytes) :
    List Exchange × Option LedgerError :=
  match validatePath path with
  | .error e => ([], some e)
  | .ok _ =>
    if addrResp.length ≠ 32 then ([getAddressExchange path], some .invalidResponse)
    else
      let pkg := signTxPkg ops tx
      (getAddressExchange path :: ⟨INS_SIGN_TX, 0x00, 0x03, pathBuf path⟩ ::
        chunkExchanges INS_SIGN_TX pkg, none)

/-- The request phase of `signData`: path validation, the public-key
fetch exchange, then the `switch` on the request type — whose failures
(unknown type, app-data with neither address nor domain) therefore
happen after the address exchange — then declaration and chunks. -/
def signDataTrace (ops : CellOps) (path : List Nat) (req : SignDataRequest)
    (timestamp : Nat) (addrResp : Bytes) : List Exchange × Option LedgerError :=
  match validatePath path with
  | .error e => ([], some e)
  | .ok _ =>
    if addrResp.length ≠ 32 then ([getAddressExchange path], some .invalidResponse)
    else
      match signDataEncode ops req with
      | .error e => ([getAddressExchange path], some e)
      | .ok (schema, data, _) =>
        let pkg := writeUint32 schema ++ writeUint64 timestamp ++ data
        (getAddressExchange path :: ⟨INS_SIGN_DATA, 0x00, 0x03, pathBuf path⟩ ::
          chunkExchanges INS_SIGN_DATA pkg, none)

/-! ## Response verification -/

/-- Offsets 1 to 64: the signature bytes of a signing response (`res.slice(1, 65)`). -/
def extractSignature (res : Bytes) : Bytes := (res.drop 1).take 64

/-- Offsets 66 to 97: the reported hash bytes (`res.slice(66, 98)`). -/
def extractHash (res : Bytes) : Bytes := (res.drop 66).take 32

/-- The verification tail shared by `signTransaction` and `signData`:
first the reported hash is compared with the expected (reconstructed)
hash — a mismatch throws with both hashes in the message — and only
then is the signature verified (over `mkMsg hash`: the hash itself for
`signTransaction`, the schema/timestamp prefix plus the hash for
`signData`) with the external `signVerify`, abstracted as `verify`. -/
def checkSignedResponse (res expectedHash : Bytes) (mkMsg : Bytes → Bytes)
    (verify : Bytes → Bytes → Bool) : Except LedgerError Bytes :=
  let signature := extractSignature res
  let hash := extractHash res
  if hash ≠ expectedHash then
    .error (.hashMismatch expectedHash hash)
  else if ¬ verify (mkMsg hash) signature then
    .error .invalidSignature
  else
    .ok signature

/-- The "order" sub-tree `signTransaction` rebuilds to recompute the
hash the device must have signed. -/
def orderCell (tx : SignTx) (stateInit payload : Option Cell) : Cell :=
  let b := ((((((((((((Builder.empty.storeBit false).storeBit true).storeBit
    tx.bounce).storeBit false).storeAddress none).storeAddress
    (some tx.dest)).storeCoins tx.amount).storeBit false).storeCoins
    0).storeCoins 0).storeUint 0 64).storeUint 0 32)
  let b := match stateInit with
    | some c => ((b.storeBit true).storeBit true).storeRef c
    | none => b.storeBit false
  let b := match payload with
    | some c => (b.storeBit true).storeRef c
    | none => b.storeBit false
  b.endCell

/-- The reconstructed transfer cell: wallet magic, timeout, seqno, a zero
byte, the send mode, and the order sub-tree as a reference. -/
def transferCell (tx : SignTx) (stateInit payload : Option Cell) : Cell :=
  (((((Builder.empty.storeUint 698983191 32).storeUint tx.timeout
    32).storeUint tx.seqno 32).storeUint 0 8).storeUint tx.sendMode
    8).storeRef (orderCell tx stateInit payload) |>.endCell

/-! ## Supporting lemmas -/

theorem beBytes_length (n v : Nat) : (beBytes n v).length = n := by
  induction n generalizing v with
  | zero => rfl
  | succ n ih => simp [beBytes, ih]

theorem beDecode_aux (n v acc : Nat) :
    (beBytes n v).foldl (fun a b => 256 * a + b) acc = acc * 256 ^ n + v % 256 ^ n := by
  induction n generalizing acc with
  | zero => simp [beBytes, Nat.mod_one]
  | succ n ih =>
    rw [beBytes, List.foldl_cons, ih, pow_succ]
    have h : v % (256 ^ n * 256) = v % 256 ^ n + 256 ^ n * (v / 256 ^ n % 256) :=
      Nat.mod_mul
    rw [h]; ring

theorem beDecode_beBytes (n v : Nat) (h : v < 256 ^ n) :
    beDecode (beBytes n v) = v := by
  unfold beDecode
  rw [beDecode_aux, Nat.zero_mul, Nat.zero_add, Nat.mod_eq_of_lt h]

theorem bitLenAux_zero (fuel : Nat) : bitLenAux fuel 0 = 0 := by
  cases fuel <;> rfl

theorem bitLenAux_eq_log2 (fuel v : Nat) (hf : v ≤ fuel) (hv : 0 < v) :
    bitLenAux fuel v = Nat.log2 v + 1 := by
  induction fuel generalizing v with
  | zero => omega
  | succ fuel ih =>
    rw [bitLenAux, if_neg (by omega)]
    by_cases h2 : 2 ≤ v
    · have hlt : v / 2 < v := Nat.div_lt_self hv one_lt_two
      have hdiv : v / 2 ≤ fuel := by omega
      have hpos : 0 < v / 2 := Nat.div_pos h2 (by omega)
      rw [ih (v / 2) hdiv hpos]
      conv_rhs => rw [Nat.log2]
      rw [if_pos h2]
    · have hv1 : v = 1 := by omega
      subst hv1
      rw [bitLenAux_zero, Nat.log2]
      norm_num

/-- The function `bitLen` agrees with `Nat.log2` on positive inputs. -/
theorem bitLen_eq_log2 (v : Nat) (hv : 0 < v) : bitLen v = Nat.log2 v + 1 :=
  bitLenAux_eq_log2 v v le_rfl hv

theorem lt_two_pow_bitLen (v : Nat) : v < 2 ^ bitLen v := by
  rcases Nat.eq_zero_or_pos v with rfl | hv
  · decide
  · rw [bitLen_eq_log2 v hv]
    exact (Nat.log2_lt (by omega)).1 (Nat.lt_succ_self _)

theorem lt_pow_varUIntSize (v : Nat) : v < 256 ^ varUIntSize v := by
  have h1 : v < 2 ^ bitLen v := lt_two_pow_bitLen v
  have h2 : bitLen v ≤ 8 * varUIntSize v := by
    unfold varUIntSize
    have := Nat.div_add_mod (bitLen v + 7) 8
    have := Nat.mod_lt (bitLen v + 7) (show 0 < 8 by omega)
    omega
  calc v < 2 ^ bitLen v := h1
    _ ≤ 2 ^ (8 * varUIntSize v) := Nat.pow_le_pow_right (by omega) h2
    _ = 256 ^ varUIntSize v := by rw [Nat.pow_mul]

theorem flatten_map_beBytes_length (l : List Nat) :
    ((l.map (beBytes 4)).flatten).length = 4 * l.length := by
  induction l with
  | nil => rfl
  | cons x xs ih => simp [ih, beBytes_length]; ring

/-! ## Claim C7 — `writeVarUInt` -/

/-- C7: `writeVarUInt 0` is the single byte `0x00`; for every positive
`v`, the result has length `1 + ceil(bitlen v / 8)`, its first byte is
the byte count `ceil(bitlen v / 8)`, and the remaining bytes decode
big-endian back to `v`. -/
theorem c7_writeVarUInt_spec :
    writeVarUInt 0 = [0] ∧
    ∀ v : Nat, 0 < v →
      (writeVarUInt v).length = 1 + (bitLen v + 7) / 8 ∧
      (writeVarUInt v).head? = some ((bitLen v + 7) / 8) ∧
      beDecode (writeVarUInt v).tail = v := by
  refine ⟨rfl, fun v _ => ⟨?_, rfl, ?_⟩⟩
  · simp [writeVarUInt, beBytes_length, varUIntSize]
    omega
  · simpa [writeVarUInt] using beDecode_beBytes _ v (lt_pow_varUIntSize v)

/-- Witness for C7 at `v = 300`. -/
theorem c7_witness :
    0 < 300 ∧
      ((writeVarUInt 300).length = 1 + (bitLen 300 + 7) / 8 ∧
       (writeVarUInt 300).head? = some ((bitLen 300 + 7) / 8) ∧
       beDecode (writeVarUInt 300).tail = 300) :=
  ⟨by decide, c7_writeVarUInt_spec.2 300 (by decide)⟩

/-! ## Claim C5 — path validation and serialization -/

/-- C5 (amended): validation rejects exactly paths that are too short,
do not start with 44/607, or contain a hardened element; for a valid
path the serialized buffer has length `1 + 4 * len` and its first byte
is `len` — provided `len < 256`, since `buffer[0] = paths.length`
truncates modulo 256 — followed by each element plus `0x80000000` as
4 bytes big-endian. -/
theorem c5_path_spec :
    ∀ path : List Nat,
      (validatePath path = .error .invalidPath ↔
        (path.length < 6 ∨ path.get? 0 ≠ some 44 ∨ path.get? 1 ≠ some 607 ∨
          ∃ p ∈ path, 0x80000000 ≤ p)) ∧
      (validPath path → path.length < 256 →
        (pathBuf path).length = 1 + 4 * path.length ∧
        (pathBuf path).head? = some path.length ∧
        (pathBuf path).tail = (path.map (fun v => beBytes 4 (v + 0x80000000))).flatten) := by
  intro path
  constructor
  · have h : validatePath path = .error .invalidPath ↔ ¬ validPath path := by
      unfold validatePath
      split <;> simp_all
    rw [h]
    unfold validPath
    constructor
    · intro hn
      by_cases h1 : 6 ≤ path.length
      · by_cases h2 : path.get? 0 = some 44
        · by_cases h3 : path.get? 1 = some 607
          · have h4 : ¬ ∀ p ∈ path, p < 0x80000000 := fun hc => hn ⟨h1, h2, h3, hc⟩
            push_neg at h4
            exact Or.inr (Or.inr (Or.inr h4))
          · exact Or.inr (Or.inr (Or.inl h3))
        · exact Or.inr (Or.inl h2)
      · exact Or.inl (by omega)
    · rintro (h1 | h2 | h3 | ⟨p, hp, hge⟩) ⟨g1, g2, g3, g4⟩
      · omega
      · exact h2 g2
      · exact h3 g3
      · exact absurd (g4 p hp) (by omega)
  · intro _ hlen
    refine ⟨?_, ?_, ?_⟩
    · rw [pathBuf, pathElementsToBuffer, List.length_append,
        flatten_map_beBytes_length, List.length_map]
      simp [writeUint8]
    · rw [pathBuf, pathElementsToBuffer]
      simp [writeUint8, List.length_map, Nat.mod_eq_of_lt hlen]
    · rw [pathBuf, pathElementsToBuffer, List.map_map]
      rfl

/-- Witness for C5 at the canonical path `[44, 607, 0, 0, 0, 0]`. -/
theorem c5_witness :
    validPath [44, 607, 0, 0, 0, 0] ∧ [44, 607, 0, 0, 0, 0].length < 256 ∧
      ((pathBuf [44, 607, 0, 0, 0, 0]).length = 1 + 4 * [44, 607, 0, 0, 0, 0].length ∧
       (pathBuf [44, 607, 0, 0, 0, 0]).head? = some [44, 607, 0, 0, 0, 0].length ∧
       (pathBuf [44, 607, 0, 0, 0, 0]).tail =
         ([44, 607, 0, 0, 0, 0].map (fun v => beBytes 4 (v + 0x80000000))).flatten) :=
  ⟨by decide, by decide,
    (c5_path_spec [44, 607, 0, 0, 0, 0]).2 (by decide) (by decide)⟩

/-- C5 counterexample: a 256-element path passes validation, but the
first byte of its serialized buffer is `0`, not its length `256` —
`buffer[0] = paths.length` truncates modulo 256. -/
theorem c5_counterexample :
    validPath (44 :: 607 :: List.replicate 254 0) ∧
      (44 :: 607 :: List.replicate 254 0).length = 256 ∧
      (pathBuf (44 :: 607 :: List.replicate 254 0)).head? = some 0 := by
  refine ⟨⟨by simp, rfl, rfl, ?_⟩, by simp, ?_⟩
  · intro p hp
    rcases List.mem_cons.1 hp with rfl | hp
    · norm_num
    rcases List.mem_cons.1 hp with rfl | hp
    · norm_num
    have := List.eq_of_mem_replicate hp
    omega
  · rw [pathBuf, pathElementsToBuffer]
    show some ((((44 :: 607 :: List.replicate 254 0).map (· + 0x80000000)).length) % 256) = some 0
    simp

/-! ## Concrete sample values used to evaluate the model -/

/-- A workchain-0 address with an all-zero hash. -/
def addr0 : TAddress := ⟨0, List.replicate 32 0⟩

/-- The canonical 6-element derivation path. -/
def path0 : List Nat := [44, 607, 0, 0, 0, 0]

/-- An empty cell. -/
def cell0 : Cell := .mk [] []

/-- A minimal transaction skeleton. -/
def tx0 : SignTx :=
  { dest := addr0, sendMode := 3, seqno := 0, timeout := 0, bounce := true, amount := 1 }

/-! ## Claim C2 — hash check before signature check -/

/-- C2: in the response-verification tail shared by `signTransaction`
and `signData`, if the 32-byte hash extracted from the response differs
from the hash of the independently reconstructed transfer tree, the call
fails with the hash-mismatch error carrying both hashes — for every
signature-verification oracle, i.e. without consulting it — and the
invalid-signature error can only arise when the two hashes are equal. -/
theorem c2_hash_before_signature :
    ∀ (res : Bytes) (ops : CellOps) (tx : SignTx) (si p : Option Cell)
      (mkMsg : Bytes → Bytes) (verify : Bytes → Bytes → Bool),
      (extractHash res ≠ ops.hash (transferCell tx si p) →
        checkSignedResponse res (ops.hash (transferCell tx si p)) mkMsg verify =
          .error (.hashMismatch (ops.hash (transferCell tx si p)) (extractHash res))) ∧
      (checkSignedResponse res (ops.hash (transferCell tx si p)) mkMsg verify =
          .error .invalidSignature →
        extractHash res = ops.hash (transferCell tx si p)) := by
  intro res ops tx si p mkMsg verify
  by_cases h : extractHash res = ops.hash (transferCell tx si p)
  · refine ⟨fun hc => absurd h hc, fun _ => h⟩
  · refine ⟨fun _ => ?_, fun hc => ?_⟩
    · simp [checkSignedResponse, h]
    · simp [checkSignedResponse, h] at hc

/-- Witness for C2: a response whose hash field is all ones against a
reconstructed hash of all zeros (via `constOps`) fails with the
mismatch error carrying both hashes, for a verifier that accepts
everything. -/
theorem c2_witness :
    extractHash (List.replicate 98 1) ≠ constOps.hash (transferCell tx0 none none) ∧
      checkSignedResponse (List.replicate 98 1) (constOps.hash (transferCell tx0 none none))
          id (fun _ _ => true) =
        .error (.hashMismatch (constOps.hash (transferCell tx0 none none))
          (extractHash (List.replicate 98 1))) :=
  ⟨by decide,
   (c2_hash_before_signature (List.replicate 98 1) constOps tx0 none none
      id (fun _ _ => true)).1 (by decide)⟩

/-! ## Claim C1 — unsupported payload variants -/

/-- C1 counterexample: a `signTransaction` call whose payload variant is
unknown does not fail at all — the request phase completes with device
exchanges and no error — refuting that such calls fail with an
unsupported-payload error before any device I/O. -/
theorem c1_counterexample :
    (signTxTrace constOps path0 { tx0 with payload := some (.other "future-variant") }
        (List.replicate 32 0)).2 = none ∧
    (signTxTrace constOps path0 { tx0 with payload := some (.other "future-variant") }
        (List.replicate 32 0)).1 ≠ [] := by
  constructor <;> decide

/-- C1 (amended): `signTransaction` performs no unsupported-variant
check — an unknown payload variant is encoded exactly as an absent
payload and the exchange proceeds without error — while `signData` with
an unknown request type does fail, but only after the public-key fetch
exchange (and before any sign-data instruction bytes). -/
theorem c1_unsupported_payload_behavior :
    ∀ (ops : CellOps) (path : List Nat) (tx : SignTx) (tag : String)
      (resp : Bytes) (ts : Nat),
      signTxPkg ops { tx with payload := some (.other tag) } =
        signTxPkg ops { tx with payload := none } ∧
      (validPath path → resp.length = 32 →
        (signTxTrace ops path { tx with payload := some (.other tag) } resp).2 = none) ∧
      (validPath path → resp.length = 32 →
        signDataTrace ops path (.other tag) ts resp =
          ([getAddressExchange path], some (.notSupported tag))) := by
  intro ops path tx tag resp ts
  refine ⟨rfl, fun hvp hr => ?_, fun hvp hr => ?_⟩
  · simp [signTxTrace, validatePath, hvp, hr]
  · simp [signDataTrace, validatePath, hvp, hr, signDataEncode]

/-- Witness for C1 (amended) at the canonical path and a 32-byte key. -/
theorem c1_witness :
    validPath path0 ∧ (List.replicate 32 0 : Bytes).length = 32 ∧
      signDataTrace constOps path0 (.other "x") 0 (List.replicate 32 0) =
        ([getAddressExchange path0], some (.notSupported "x")) :=
  ⟨by decide, by decide,
   (c1_unsupported_payload_behavior constOps path0 tx0 "x" (List.replicate 32 0) 0).2.2
     (by decide) (by decide)⟩

/-! ## Claim C10 — app-data with neither address nor domain -/

/-- C10 counterexample: the app-data both-unset check does throw, but
only after the public-key fetch — the trace already contains a device
exchange when the error is raised — refuting "before any bytes are
exchanged with the device". -/
theorem c10_counterexample :
    (signDataTrace constOps path0 (.appData none none cell0 none) 0
        (List.replicate 32 0)).1 ≠ [] ∧
    (signDataTrace constOps path0 (.appData none none cell0 none) 0
        (List.replicate 32 0)).2 = some .appDataEmpty := by
  constructor <;> decide

/-- C10 (amended): with both `address` and `domain` unset, `signData`
fails with the both-unset error after exactly the public-key fetch
exchange and before any sign-data instruction bytes; with at least one
of the two set, the check passes (the encoder succeeds). -/
theorem c10_app_data_check :
    ∀ (ops : CellOps) (path : List Nat) (data : Cell) (ext : Option Cell)
      (ts : Nat) (resp : Bytes),
      (validPath path → resp.length = 32 →
        signDataTrace ops path (.appData none none data ext) ts resp =
          ([getAddressExchange path], some .appDataEmpty)) ∧
      ∀ (addr : Option TAddress) (dom : Option Bytes),
        addr.isSome ∨ dom.isSome →
        ∃ r, signDataEncode ops (.appData addr dom data ext) = .ok r := by
  intro ops path data ext ts resp
  constructor
  · intro hvp hr
    simp [signDataTrace, validatePath, hvp, hr, signDataEncode]
  · intro addr dom h
    match addr, dom, h with
    | some a, _, _ => exact ⟨_, rfl⟩
    | none, some db, _ => exact ⟨_, rfl⟩
    | none, none, h => simp at h

/-- Witness for C10 at the canonical path, an empty data cell, and
`address` present. -/
theorem c10_witness :
    validPath path0 ∧ (List.replicate 32 0 : Bytes).length = 32 ∧
      signDataTrace constOps path0 (.appData none none cell0 none) 0 (List.replicate 32 0) =
        ([getAddressExchange path0], some .appDataEmpty) ∧
      ∃ r, signDataEncode constOps (.appData (some addr0) none cell0 none) = .ok r :=
  ⟨by decide, by decide,
   (c10_app_data_check constOps path0 cell0 none 0 (List.replicate 32 0)).1
     (by decide) (by decide),
   (c10_app_data_check constOps path0 cell0 none 0 (List.replicate 32 0)).2
     (some addr0) none (Or.inl rfl)⟩

/-! ## Claim C4 — no chain validation -/

/-- C4 counterexample: with `chain = 5` (neither 0 nor −1), flag
resolution succeeds (masterchain bit unset) and `getAddress` reaches its
device exchange with no error — refuting that such calls fail with an
invalid-chain error before any device I/O. -/
theorem c4_counterexample :
    processAddressFlags (some { chain := some 5 }) =
      ⟨false, true, 5, 0⟩ ∧
    (getAddressTrace path0 (some { chain := some 5 }) (List.replicate 32 0)).1 =
      [getAddressExchange path0] ∧
    (getAddressTrace path0 (some { chain := some 5 }) (List.replicate 32 0)).2 = none := by
  refine ⟨by decide, by decide, by decide⟩

/-- C4 (amended): the chain option is never validated — every chain
value is accepted, with the masterchain flag bit set exactly when the
chain is −1 and the chain defaulting to 0 — and both `getAddress` and
`validateAddress` proceed to their device exchange regardless of the
chain value (so chain 0 and −1 are accepted, but so is every other
value). -/
theorem c4_chain_not_validated :
    ∀ (opts : Option AddressOpts) (path : List Nat) (resp : Bytes),
      (processAddressFlags opts).chain = (opts.bind (·.chain)).getD 0 ∧
      (processAddressFlags opts).flags =
        Nat.lor (if (opts.bind (·.testOnly)).getD false then 0x01 else 0)
          (if (opts.bind (·.chain)).getD 0 = -1 then 0x02 else 0) ∧
      (validPath path → resp.length = 32 →
        (getAddressTrace path opts resp).2 = none ∧
        (validateAddressTrace path opts resp).2 = none) := by
  intro opts path resp
  refine ⟨rfl, rfl, fun hvp hr => ⟨?_, ?_⟩⟩
  · simp [getAddressTrace, validatePath, hvp, hr]
  · simp [validateAddressTrace, validatePath, hvp, hr]

/-- Witness for C4 at the canonical path with `chain = 5`. -/
theorem c4_witness :
    validPath path0 ∧ (List.replicate 32 0 : Bytes).length = 32 ∧
      (processAddressFlags (some { chain := some 5 })).chain =
        ((some { chain := some 5 } : Option AddressOpts).bind (·.chain)).getD 0 ∧
      ((getAddressTrace path0 (some { chain := some 5 }) (List.replicate 32 0)).2 = none ∧
       (validateAddressTrace path0 (some { chain := some 5 }) (List.replicate 32 0)).2 = none) :=
  ⟨by decide, by decide,
   (c4_chain_not_validated (some { chain := some 5 }) path0 (List.replicate 32 0)).1,
   (c4_chain_not_validated (some { chain := some 5 }) path0 (List.replicate 32 0)).2.2
     (by decide) (by decide)⟩

/-! ## Bit-level shapes used to state the tree-layout claims -/

/-- The bit shape `storeCoins v` appends: a 4-bit byte count then that
many bytes of value bits. -/
def coinsBits (v : Nat) : List Bool :=
  natToBits 4 (varUIntSize v) ++ natToBits (8 * varUIntSize v) v

/-- The bit shape `storeAddress (some a)` appends: the 2-bit tag `10`
(`natToBits 2 2`), anycast `0`, 8-bit workchain, 256-bit hash. -/
def addrBits (a : TAddress) : List Bool :=
  natToBits 2 2 ++ [false] ++ natToBits 8 (a.workChain % 256).toNat ++ bytesToBits a.hash

/-! ## Claim C6 — jetton-transfer tree layout -/

/-- C6 counterexample: for the scenario of the claim (queryId null, amount 1,
both addresses `D`, no optional references), the bit
stream is *not* tag ∥ 64-bit zero ∥ byte-level varuint(1) ∥ 33-byte
address ∥ 33-byte address ∥ presence-bit ∥ byte-level varuint(0) ∥
presence-bit: in the tree, amounts use the 4-bit-length coins encoding
and addresses the 267-bit cell encoding, not the byte-level hint
encodings. -/
theorem c6_counterexample :
    ((encodePayload constOps (some (.jettonTransfer none 1 9 [84, 83, 84] addr0 addr0
        none 0 none))).1.map Cell.bits) ≠
      some (natToBits 32 0x0f8a7ea5 ++ natToBits 64 0 ++
        bytesToBits (writeVarUInt 1) ++ bytesToBits (writeAddress addr0) ++
        bytesToBits (writeAddress addr0) ++ [false] ++ bytesToBits (writeVarUInt 0) ++
        [false]) := by
  decide

/-- C6 (amended): for the scenario of the claim the payload tree begins with
the 32-bit tag `0x0f8a7ea5`, then a 64-bit zero, then coins(1) (4-bit
byte count plus one value byte), then the 267-bit address `D` twice,
presence-bit 0, coins(0), presence-bit 0.  (The 33-byte address form
and the byte-level varuint belong to the hint stream only; `decimals`
and `ticker` do not appear in the tree at all.) -/
theorem c6_jetton_tree_layout :
    ∀ (ops : CellOps) (D : TAddress) (decimals : Nat) (ticker : Bytes),
      ((encodePayload ops (some (.jettonTransfer none 1 decimals ticker D D none 0
          none))).1.map Cell.bits) =
        some (natToBits 32 0x0f8a7ea5 ++ natToBits 64 0 ++ coinsBits 1 ++
          addrBits D ++ addrBits D ++ [false] ++ coinsBits 0 ++ [false]) := by
  intro ops D decimals ticker
  simp [encodePayload, jettonNftTree, Builder.storeUint, Builder.storeCoins,
    Builder.storeAddress, Builder.storeMaybeRef, Builder.storeBit, Builder.storeBuffer,
    Builder.empty, Builder.endCell, Cell.bits, addrBits, coinsBits, List.append_assoc]

/-! ## Claim C8 — presence agreement between hint stream and tree -/

/-- C8 counterexample: the tree does not record the query-id presence
at all — a jetton transfer with `queryId = some 0` and one with
`queryId = null` produce the *same* tree but different hint streams, so
the two encodings do not mark the same set of fields as present. -/
theorem c8_counterexample :
    (encodePayload constOps (some (.jettonTransfer (some 0) 1 9 [84, 83, 84] addr0 addr0
        none 0 none))).1 =
      (encodePayload constOps (some (.jettonTransfer none 1 9 [84, 83, 84] addr0 addr0
        none 0 none))).1 ∧
    (encodePayload constOps (some (.jettonTransfer (some 0) 1 9 [84, 83, 84] addr0 addr0
        none 0 none))).2 ≠
      (encodePayload constOps (some (.jettonTransfer none 1 9 [84, 83, 84] addr0 addr0
        none 0 none))).2 :=
  ⟨rfl, by decide⟩

/-- C8 (amended): for the optional *reference* fields (custom payload
and forward payload of jetton/NFT transfers; address, domain and
extension of app-data requests) the hint stream writes presence byte 1
and the tree a presence bit `true` exactly when the field is present —
the two always agree — but the query id is hint-only: the tree stores a
plain 64-bit value (zero when unset) with no presence marker. -/
theorem c8_presence_flags :
    ∀ (ops : CellOps) (qid : Option Nat) (amount decimals : Nat) (ticker : Bytes)
      (dst rsp owner : TAddress) (custom : Option Cell) (fwdAmt : Nat)
      (fwdP : Option Cell) (addr : Option TAddress) (dom : Option Bytes)
      (data : Cell) (ext : Option Cell),
      (jettonNftTree (.jettonTransfer qid amount decimals ticker dst rsp custom
          fwdAmt fwdP)).bits =
        natToBits 32 0x0f8a7ea5 ++ natToBits 64 (qid.getD 0) ++ coinsBits amount ++
          addrBits dst ++ addrBits rsp ++ [custom.isSome] ++ coinsBits fwdAmt ++
          [fwdP.isSome] ∧
      (jettonNftTree (.jettonTransfer qid amount decimals ticker dst rsp custom
          fwdAmt fwdP)).refs = custom.toList ++ fwdP.toList ∧
      jettonNftHintBody ops (.jettonTransfer qid amount decimals ticker dst rsp custom
          fwdAmt fwdP) =
        ((if qid.isSome then 1 else 0) :: qid.elim [] writeUint64) ++
          writeVarUInt amount ++ writeUint8 decimals ++ writeUint8 ticker.length ++
          ticker ++ writeAddress dst ++ writeAddress rsp ++
          ((if custom.isSome then 1 else 0) :: custom.elim [] (writeCellRef ops)) ++
          writeVarUInt fwdAmt ++
          ((if fwdP.isSome then 1 else 0) :: fwdP.elim [] (writeCellRef ops)) ∧
      (jettonNftTree (.nftTransfer qid owner rsp custom fwdAmt fwdP)).bits =
        natToBits 32 0x5fcc3d14 ++ natToBits 64 (qid.getD 0) ++ addrBits owner ++
          addrBits rsp ++ [custom.isSome] ++ coinsBits fwdAmt ++ [fwdP.isSome] ∧
      (jettonNftTree (.nftTransfer qid owner rsp custom fwdAmt fwdP)).refs =
        custom.toList ++ fwdP.toList ∧
      jettonNftHintBody ops (.nftTransfer qid owner rsp custom fwdAmt fwdP) =
        ((if qid.isSome then 1 else 0) :: qid.elim [] writeUint64) ++
          writeAddress owner ++ writeAddress rsp ++
          ((if custom.isSome then 1 else 0) :: custom.elim [] (writeCellRef ops)) ++
          writeVarUInt fwdAmt ++
          ((if fwdP.isSome then 1 else 0) :: fwdP.elim [] (writeCellRef ops)) ∧
      (addr.isSome ∨ dom.isSome →
        signDataEncode ops (.appData addr dom data ext) =
          .ok (0x54b58535,
            ((if addr.isSome then 1 else 0) :: addr.elim [] writeAddress) ++
              ((if dom.isSome then 1 else 0) ::
                dom.elim [] (fun db => writeUint8 db.length ++ db)) ++
              writeCellRef ops data ++
              ((if ext.isSome then 1 else 0) :: ext.elim [] (writeCellRef ops)),
            Cell.mk ((addr.isSome :: addr.elim [] addrBits) ++ [dom.isSome, ext.isSome])
              ((dom.map domainCell).toList ++ data :: ext.toList))) := by
  intro ops qid amount decimals ticker dst rsp owner custom fwdAmt fwdP addr dom data ext
  refine ⟨?_, ?_, ?_, ?_, ?_, ?_, ?_⟩
  · cases custom <;> cases fwdP <;>
      simp [jettonNftTree, Builder.storeUint, Builder.storeCoins, Builder.storeAddress,
        Builder.storeMaybeRef, Builder.storeBit, Builder.storeBuffer, Builder.storeRef,
        Builder.empty, addrBits, coinsBits, List.append_assoc]
  · cases custom <;> cases fwdP <;>
      simp [jettonNftTree, Builder.storeUint, Builder.storeCoins, Builder.storeAddress,
        Builder.storeMaybeRef, Builder.storeBit, Builder.storeBuffer, Builder.storeRef,
        Builder.empty]
  · cases qid <;> cases custom <;> cases fwdP <;>
      simp [jettonNftHintBody, hintOptU64, hintOptRef, writeUint8, List.append_assoc]
  · cases custom <;> cases fwdP <;>
      simp [jettonNftTree, Builder.storeUint, Builder.storeCoins, Builder.storeAddress,
        Builder.storeMaybeRef, Builder.storeBit, Builder.storeBuffer, Builder.storeRef,
        Builder.empty, addrBits, coinsBits, List.append_assoc]
  · cases custom <;> cases fwdP <;>
      simp [jettonNftTree, Builder.storeUint, Builder.storeCoins, Builder.storeAddress,
        Builder.storeMaybeRef, Builder.storeBit, Builder.storeBuffer, Builder.storeRef,
        Builder.empty]
  · cases qid <;> cases custom <;> cases fwdP <;>
      simp [jettonNftHintBody, hintOptU64, hintOptRef, writeUint8, List.append_assoc]
  · intro h
    cases addr <;> cases dom <;> cases ext <;>
      simp_all [signDataEncode, Builder.storeUint, Builder.storeAddress,
        Builder.storeMaybeRef, Builder.storeBit, Builder.storeBuffer, Builder.storeRef,
        Builder.empty, Builder.endCell, writeUint8, addrBits, List.append_assoc]

/-- Witness for the app-data clause of C8: with the address present and
domain absent, the encoder succeeds and its output has the matching
presence markers. -/
theorem c8_witness :
    signDataEncode constOps (.appData (some addr0) none cell0 none) =
      .ok (0x54b58535,
        ((if (some addr0 : Option TAddress).isSome then 1 else 0) ::
            (some addr0 : Option TAddress).elim [] writeAddress) ++
          ((if (none : Option Bytes).isSome then 1 else 0) ::
            (none : Option Bytes).elim [] (fun db => writeUint8 db.length ++ db)) ++
          writeCellRef constOps cell0 ++
          ((if (none : Option Cell).isSome then 1 else 0) ::
            (none : Option Cell).elim [] (writeCellRef constOps)),
        Cell.mk (((some addr0 : Option TAddress).isSome ::
              (some addr0 : Option TAddress).elim [] addrBits) ++
            [(none : Option Bytes).isSome, (none : Option Cell).isSome])
          (((none : Option Bytes).map domainCell).toList ++
            cell0 :: (none : Option Cell).toList)) :=
  (c8_presence_flags constOps none 1 9 [] addr0 addr0 addr0 none 0 none
    (some addr0) none cell0 none).2.2.2.2.2.2 (Or.inl rfl)

/-! ## Claim C9 — hint length field -/

/-- The payloads that produce a tagged hint record (`comment`,
`jetton-transfer`, `nft-transfer`); the raw variant and an absent or
unknown payload leave the absence marker `[0]`. -/
def producesHint : Option TonPayloadFormat → Prop
  | some (.comment _) => True
  | some (.jettonTransfer ..) => True
  | some (.nftTransfer ..) => True
  | _ => False

theorem hint_drop_five (tag m : Nat) (body : Bytes) :
    (writeUint8 1 ++ writeUint32 tag ++ writeUint16 m ++ body).drop 5 =
      writeUint16 m ++ body := by
  rw [show writeUint8 1 ++ writeUint32 tag ++ writeUint16 m ++ body =
    (writeUint8 1 ++ writeUint32 tag) ++ (writeUint16 m ++ body) by
      simp [List.append_assoc]]
  exact List.drop_left' (by simp [writeUint8, writeUint32, beBytes_length])

theorem hint_drop_seven (tag m : Nat) (body : Bytes) :
    (writeUint8 1 ++ writeUint32 tag ++ writeUint16 m ++ body).drop 7 = body := by
  rw [show writeUint8 1 ++ writeUint32 tag ++ writeUint16 m ++ body =
    (writeUint8 1 ++ writeUint32 tag ++ writeUint16 m) ++ body by
      simp [List.append_assoc]]
  exact List.drop_left' (by simp [writeUint8, writeUint32, writeUint16, beBytes_length])

theorem hint_take_two (m : Nat) (body : Bytes) :
    (writeUint16 m ++ body).take 2 = writeUint16 m :=
  List.take_left' (by simp [writeUint16, beBytes_length])

/-- C9: for every payload variant that produces a hint record, the
2-byte length field written after the tag bytes of the record equals the
byte length of the hint body that follows it — both as the byte pair
itself and under big-endian decoding (the latter provided the body is
shorter than `2^16`, the range in which `writeUint16BE` succeeds). -/
theorem c9_hint_length_field :
    ∀ (ops : CellOps) (p : Option TonPayloadFormat),
      producesHint p →
      ((encodePayload ops p).2.drop 7).length < 65536 →
      ((encodePayload ops p).2.drop 5).take 2 =
        writeUint16 (((encodePayload ops p).2.drop 7).length) ∧
      beDecode (((encodePayload ops p).2.drop 5).take 2) =
        ((encodePayload ops p).2.drop 7).length := by
  intro ops p hp hlen
  have key : ∀ (tag : Nat) (body : Bytes),
      (encodePayload ops p).2 = writeUint8 1 ++ writeUint32 tag ++
        writeUint16 body.length ++ body →
      ((encodePayload ops p).2.drop 5).take 2 =
        writeUint16 (((encodePayload ops p).2.drop 7).length) ∧
      beDecode (((encodePayload ops p).2.drop 5).take 2) =
        ((encodePayload ops p).2.drop 7).length := by
    intro tag body heq
    rw [heq] at hlen ⊢
    rw [hint_drop_five, hint_drop_seven, hint_take_two]
    rw [hint_drop_seven] at hlen
    refine ⟨rfl, ?_⟩
    exact beDecode_beBytes 2 body.length (by norm_num; omega)
  cases p with
  | none => simp [producesHint] at hp
  | some v =>
    cases v with
    | raw m => simp [producesHint] at hp
    | other t => simp [producesHint] at hp
    | comment text => exact key 0 text rfl
    | jettonTransfer qid amount decimals ticker dst rsp custom fwdAmt fwdP =>
      exact key 0x01 (jettonNftHintBody ops
        (.jettonTransfer qid amount decimals ticker dst rsp custom fwdAmt fwdP)) rfl
    | nftTransfer qid owner rsp custom fwdAmt fwdP =>
      exact key 0x02 (jettonNftHintBody ops
        (.nftTransfer qid owner rsp custom fwdAmt fwdP)) rfl

/-- Witness for C9 on the comment payload "Deposit". -/
theorem c9_witness :
    producesHint (some (.comment [68, 101, 112, 111, 115, 105, 116])) ∧
      (((encodePayload constOps
          (some (.comment [68, 101, 112, 111, 115, 105, 116]))).2.drop 7).length < 65536 ∧
       ((encodePayload constOps
          (some (.comment [68, 101, 112, 111, 115, 105, 116]))).2.drop 5).take 2 =
         writeUint16 (((encodePayload constOps
          (some (.comment [68, 101, 112, 111, 115, 105, 116]))).2.drop 7).length) ∧
       beDecode (((encodePayload constOps
          (some (.comment [68, 101, 112, 111, 115, 105, 116]))).2.drop 5).take 2) =
         ((encodePayload constOps
          (some (.comment [68, 101, 112, 111, 115, 105, 116]))).2.drop 7).length) :=
  ⟨trivial, by decide,
   (c9_hint_length_field constOps (some (.comment [68, 101, 112, 111, 115, 105, 116]))
      trivial (by decide)).1,
   (c9_hint_length_field constOps (some (.comment [68, 101, 112, 111, 115, 105, 116]))
      trivial (by decide)).2⟩

end TonLedger
